import Mathlib

-- Shallow embedding of src/main.py (Bitespeed identity reconciliation service).
-- The Contact table is a list of rows in insertion (rowid) order together with
-- the next AUTOINCREMENT id.  Timestamps are naturals; every datetime.now()
-- inside one identify call is modelled by the single parameter now.  Nullable
-- columns are Options.  SQL comparisons use SQL NULL semantics (NULL = x is
-- never true); Python comparisons use plain Option equality; Python truthiness
-- treats None and the empty string as falsy.  Raised exceptions are modelled
-- by the error side of Except: badRequest is the HTTPException(400),
-- noneType is the TypeError raised by dict(cursor.fetchone()) when a fetched
-- primary id has no row, responseValidation is the pydantic error raised when
-- a response is built with a null primaryContatctId.

/-- Embeds one row of the Contact table (init_database in src/main.py). -/
structure Contact where
  id : Nat
  email : Option String
  phoneNumber : Option String
  linkedId : Option Nat
  linkPrecedence : String
  createdAt : Nat
  updatedAt : Nat
  deletedAt : Option Nat
  deriving DecidableEq

/-- Embeds the database: rows in insertion order plus the next AUTOINCREMENT id. -/
structure DB where
  contacts : List Contact
  nextId : Nat
  deriving DecidableEq

/-- Embeds the IdentifyRequest pydantic model. -/
structure IdentifyRequest where
  email : Option String
  phoneNumber : Option String
  deriving DecidableEq

/-- Embeds the ContactResponse pydantic model (typo in the field name kept). -/
structure ContactResponse where
  primaryContatctId : Nat
  emails : List String
  phoneNumbers : List String
  secondaryContactIds : List Nat
  deriving DecidableEq

/-- Exceptions observable from identify. -/
inductive IdErr where
  | badRequest
  | noneType
  | responseValidation
  deriving DecidableEq

/-- Python truthiness of an optional string: None and the empty string are falsy. -/
def truthy : Option String → Bool
  | none => false
  | some s => s != ""

/-- Embeds the SQL comparison col = ? : true only when both sides are non-NULL and equal. -/
def sqlEqS : Option String → Option String → Bool
  | some a, some b => a == b
  | _, _ => false

/-- Embeds the SQL comparison col = ? on integer columns. -/
def sqlEqN : Option Nat → Option Nat → Bool
  | some a, some b => a == b
  | _, _ => false

/-- Stable insertion into a list sorted by createdAt; models ORDER BY createdAt ASC,
with scan (insertion) order preserved between equal keys. -/
def insertByCreatedAt (c : Contact) : List Contact → List Contact
  | [] => [c]
  | d :: ds => if c.createdAt ≤ d.createdAt then c :: d :: ds else d :: insertByCreatedAt c ds

/-- Stable sort by createdAt ascending. -/
def sortByCreatedAt : List Contact → List Contact
  | [] => []
  | c :: cs => insertByCreatedAt c (sortByCreatedAt cs)

/-- Embeds get_contacts_by_email_or_phone (src/main.py lines 60-73). -/
def get_contacts_by_email_or_phone (email phoneNumber : Option String) (db : DB) : List Contact :=
  sortByCreatedAt (db.contacts.filter
    (fun c => c.deletedAt == none && (sqlEqS c.email email || sqlEqS c.phoneNumber phoneNumber)))

/-- Embeds get_all_linked_contacts (lines 75-89); the argument may be Python None. -/
def get_all_linked_contacts (pid : Option Nat) (db : DB) : List Contact :=
  sortByCreatedAt (db.contacts.filter
    (fun c => c.deletedAt == none && (sqlEqN (some c.id) pid || sqlEqN c.linkedId pid)))

/-- Embeds create_contact (lines 101-117): INSERT returning lastrowid. -/
def create_contact (email phoneNumber : Option String) (linkedId : Option Nat)
    (linkPrecedence : String) (now : Nat) (db : DB) : Nat × DB :=
  (db.nextId,
   { contacts := db.contacts ++
       [{ id := db.nextId, email := email, phoneNumber := phoneNumber, linkedId := linkedId,
          linkPrecedence := linkPrecedence, createdAt := now, updatedAt := now, deletedAt := none }],
     nextId := db.nextId + 1 })

/-- The field changes applied by update_contact_to_secondary. -/
def demote (sid now : Nat) (c : Contact) : Contact :=
  { c with linkedId := some sid, linkPrecedence := "secondary", updatedAt := now }

/-- Embeds update_contact_to_secondary (lines 119-131): UPDATE ... WHERE id = cid. -/
def update_contact_to_secondary (cid sid now : Nat) (db : DB) : DB :=
  { db with contacts := db.contacts.map (fun c => if c.id = cid then demote sid now c else c) }

/-- Embeds the partition loop of consolidate_contacts: the record whose id equals
primary_id (last assignment wins) versus the secondaries, in list order. -/
def splitGo (pid : Option Nat) : Option Contact × List Contact → List Contact →
    Option Contact × List Contact
  | acc, [] => acc
  | acc, c :: cs =>
      if some c.id == pid then splitGo pid (some c, acc.2) cs
      else splitGo pid (acc.1, acc.2 ++ [c]) cs

/-- Embeds one append step: if contact value is truthy and not yet listed, append it. -/
def addIfNew (v : Option String) (acc : List String) : List String :=
  match v with
  | some s => if s != "" && !acc.contains s then acc ++ [s] else acc
  | none => acc

/-- Embeds consolidate_contacts (lines 133-170); returns none exactly when pid is
Python None, in which case building the ContactResponse raises a validation error. -/
def consolidate_contacts (pid : Option Nat) (db : DB) : Option ContactResponse :=
  let all := get_all_linked_contacts pid db
  let split := splitGo pid (none, []) all
  let emails0 := match split.1 with
    | some p => addIfNew p.email []
    | none => []
  let phones0 := match split.1 with
    | some p => addIfNew p.phoneNumber []
    | none => []
  let emails := split.2.foldl (fun a c => addIfNew c.email a) emails0
  let phones := split.2.foldl (fun a c => addIfNew c.phoneNumber a) phones0
  match pid with
  | some p => some { primaryContatctId := p, emails := emails, phoneNumbers := phones,
                     secondaryContactIds := split.2.map (fun c => c.id) }
  | none => none

/-- The group-root id contributed by one matched contact (lines 206-212): a primary
contributes its own id, a secondary contributes its linkedId (possibly Python None). -/
def rootOf (c : Contact) : Option Nat :=
  if c.linkPrecedence == "primary" then some c.id else c.linkedId

/-- One slot of the modelled CPython set hash table. -/
inductive Slot where
  | empty
  | filled (r : Option Nat)
  deriving DecidableEq

/-- CPython's hash of a non-negative int is the int itself.  A Python None can
only reach the root set from a store holding a secondary with NULL linkedId;
its implementation-defined hash is modelled as 0 and no statement below
exercises that case. -/
def pyHash : Option Nat → Nat
  | some n => n
  | none => 0

/-- Models CPython's set_add_entry probing on the initial 8-slot table (mask 7):
start at hash mod 8; on a collision with a different element, perturb
(initially the hash) is shifted right by 5 and the next index is
(5*i + 1 + perturb) mod 8.  With mask 7 the 9-slot linear-probe window of
set_add_entry never fits, so no linear probing occurs.  The fuel bounds the
walk; once perturb reaches 0 the affine step cycles through all 8 slots, so 64
steps always find the element or an empty slot in a non-full table. -/
def setProbe (r : Option Nat) : List Slot → Nat → Nat → Nat → List Slot
  | table, _, _, 0 => table
  | table, i, perturb, fuel + 1 =>
      match table.get? i with
      | some Slot.empty => table.set i (Slot.filled r)
      | some (Slot.filled x) =>
          if x = r then table
          else setProbe r table ((5 * i + 1 + (perturb >>> 5)) % 8) (perturb >>> 5) fuel
      | none => table

/-- The eight empty slots of a freshly created CPython set (PySet_MINSIZE = 8). -/
def emptyTable : List Slot :=
  [Slot.empty, Slot.empty, Slot.empty, Slot.empty,
   Slot.empty, Slot.empty, Slot.empty, Slot.empty]

/-- Adds one root id to the modelled set table. -/
def setAdd (table : List Slot) (r : Option Nat) : List Slot :=
  setProbe r table (pyHash r % 8) (pyHash r) 64

/-- The set of distinct group roots reached from the matched contacts (lines
202-215), iterated in slot order as CPython iterates a set: the iteration
order is hash- and insertion-dependent, not sorted.  (CPython would resize the
table once more than four roots are stored; the model keeps the 8-slot table,
and nothing below depends on the iteration order in that regime.)  The reads
of get_all_linked_contacts in this loop only populate the unused variable
all_related_contacts, so they are not modelled. -/
def collectRoots (l : List Contact) : List (Option Nat) :=
  (l.foldl (fun t c => setAdd t (rootOf c)) emptyTable).filterMap
    (fun s => match s with
      | Slot.filled r => some r
      | Slot.empty => none)

/-- Embeds SELECT * FROM Contact WHERE id = ? followed by dict(cursor.fetchone())
at lines 223-225.  There is no deletedAt filter here.  A none result means the
fetch found no row, where dict(None) raises a TypeError. -/
def fetchById (db : DB) (r : Option Nat) : Option Contact :=
  match r with
  | some p => db.contacts.find? (fun c => c.id == p)
  | none => none

/-- Fetches every collected root id in iteration order; none if any fetch fails. -/
def fetchRoots (db : DB) : List (Option Nat) → Option (List Contact)
  | [] => some []
  | r :: rs =>
      match fetchById db r, fetchRoots db rs with
      | some c, some cs => some (c :: cs)
      | _, _ => none

/-- Embeds Python min over createdAt: the first element with the minimal key wins. -/
def pyMinByCreatedAt (c0 : Contact) (cs : List Contact) : Contact :=
  cs.foldl (fun best x => if x.createdAt < best.createdAt then x else best) c0

/-- Embeds the demotion loop (lines 230-232): every fetched root other than the
surviving one is updated to secondary under the survivor. -/
def demoteAll (roots : List Contact) (sid now : Nat) (db : DB) : DB :=
  roots.foldl (fun d r => if r.id = sid then d else update_contact_to_secondary r.id sid now d) db

/-- Embeds the truthy-filtering set comprehension over one column (lines 243-244). -/
def activeVals (f : Contact → Option String) (l : List Contact) : List String :=
  l.filterMap (fun c => match f c with
    | some s => if s == "" then none else some s
    | none => none)

/-- The emails already present in the group of pid. -/
def groupEmails (pid : Option Nat) (db : DB) : List String :=
  activeVals (fun c => c.email) (get_all_linked_contacts pid db)

/-- The phone numbers already present in the group of pid. -/
def groupPhones (pid : Option Nat) (db : DB) : List String :=
  activeVals (fun c => c.phoneNumber) (get_all_linked_contacts pid db)

/-- Embeds the test request.field and request.field not in existing_values. -/
def isNewVal (v : Option String) (existing : List String) : Bool :=
  match v with
  | some s => s != "" && !existing.contains s
  | none => false

/-- Embeds lines 238-252: the new-information check, creating one secondary
record exactly when the request carries a new identifier. -/
def new_info_step (req : IdentifyRequest) (pid : Option Nat) (now : Nat) (db : DB) : DB :=
  if isNewVal req.email (groupEmails pid db) || isNewVal req.phoneNumber (groupPhones pid db) then
    (create_contact req.email req.phoneNumber pid "secondary" now db).2
  else db

/-- Embeds lines 238-256: new-information check, then the final consolidation. -/
def finishIdentify (req : IdentifyRequest) (pid : Option Nat) (now : Nat) (db : DB) :
    Except IdErr (ContactResponse × DB) :=
  let db1 := new_info_step req pid now db
  match consolidate_contacts pid db1 with
  | some resp => .ok (resp, db1)
  | none => .error .responseValidation

/-- Embeds the root taken for an exact match (line 198): linkedId if truthy, else id. -/
def rootOfExact (c : Contact) : Nat :=
  match c.linkedId with
  | some l => if l = 0 then c.id else l
  | none => c.id

/-- Embeds the identify endpoint (lines 172-256). -/
def identify (req : IdentifyRequest) (now : Nat) (db : DB) :
    Except IdErr (ContactResponse × DB) :=
  if !truthy req.email && !truthy req.phoneNumber then .error .badRequest
  else
    let existing := get_contacts_by_email_or_phone req.email req.phoneNumber db
    if existing.isEmpty then
      let created := create_contact req.email req.phoneNumber none "primary" now db
      match consolidate_contacts (some created.1) created.2 with
      | some resp => .ok (resp, created.2)
      | none => .error .responseValidation
    else
      match existing.find? (fun c => c.email == req.email && c.phoneNumber == req.phoneNumber) with
      | some em =>
          match consolidate_contacts (some (rootOfExact em)) db with
          | some resp => .ok (resp, db)
          | none => .error .responseValidation
      | none =>
          match collectRoots existing with
          | [] => .error .noneType
          | [r] => finishIdentify req r now db
          | r0 :: r1 :: rs =>
              match fetchRoots db (r0 :: r1 :: rs) with
              | some (c0 :: cs) =>
                  let oldest := pyMinByCreatedAt c0 cs
                  finishIdentify req (some oldest.id) now (demoteAll (c0 :: cs) oldest.id now db)
              | _ => .error .noneType

/-- Decides invariant 2 of the spec: no linkedId references a secondary record. -/
def linksOnlyToPrimaries (db : DB) : Bool :=
  db.contacts.all (fun c =>
    match c.linkedId with
    | some t => db.contacts.all (fun d => !(d.id == t) || !(d.linkPrecedence == "secondary"))
    | none => true)

/-- C8: with both email and phoneNumber absent, identify fails with the
client-input error on every store, and no successor store is produced; the
result is independent of the store, reflecting that no store access happens. -/
theorem identify_both_absent_client_error (db : DB) (now : Nat) :
    identify { email := none, phoneNumber := none } now db = .error .badRequest := rfl

/-- C10: empty-string identifiers are treated as absent by the boundary check:
both fields equal to the empty string raise the same client-input error as both
fields absent, on every store. -/
theorem identify_empty_strings_client_error (db : DB) (now : Nat) :
    identify { email := some (""), phoneNumber := some ("") } now db = .error .badRequest ∧
    identify { email := none, phoneNumber := none } now db = .error .badRequest :=
  ⟨rfl, rfl⟩

/-- C1 (code bug): starting from the empty store, the four identify calls below are
all accepted, and after the fourth call record 3 still has linkedId = 2 although
record 2 has just been demoted to secondary: the code never re-points the
secondaries of a demoted former primary, so the flatten invariant fails. -/
theorem merge_leaves_link_to_demoted_secondary :
    identify { email := some ("b@y.com"), phoneNumber := some ("222") } 1 ⟨[], 1⟩
      = .ok (⟨1, ["b@y.com"], ["222"], []⟩,
          ⟨[⟨1, some ("b@y.com"), some ("222"), none, "primary", 1, 1, none⟩], 2⟩) ∧
    identify { email := some ("a@x.com"), phoneNumber := some ("111") } 2
        ⟨[⟨1, some ("b@y.com"), some ("222"), none, "primary", 1, 1, none⟩], 2⟩
      = .ok (⟨2, ["a@x.com"], ["111"], []⟩,
          ⟨[⟨1, some ("b@y.com"), some ("222"), none, "primary", 1, 1, none⟩,
            ⟨2, some ("a@x.com"), some ("111"), none, "primary", 2, 2, none⟩], 3⟩) ∧
    identify { email := some ("a@x.com"), phoneNumber := some ("333") } 3
        ⟨[⟨1, some ("b@y.com"), some ("222"), none, "primary", 1, 1, none⟩,
          ⟨2, some ("a@x.com"), some ("111"), none, "primary", 2, 2, none⟩], 3⟩
      = .ok (⟨2, ["a@x.com"], ["111", "333"], [3]⟩,
          ⟨[⟨1, some ("b@y.com"), some ("222"), none, "primary", 1, 1, none⟩,
            ⟨2, some ("a@x.com"), some ("111"), none, "primary", 2, 2, none⟩,
            ⟨3, some ("a@x.com"), some ("333"), some 2, "secondary", 3, 3, none⟩], 4⟩) ∧
    identify { email := some ("b@y.com"), phoneNumber := some ("111") } 4
        ⟨[⟨1, some ("b@y.com"), some ("222"), none, "primary", 1, 1, none⟩,
          ⟨2, some ("a@x.com"), some ("111"), none, "primary", 2, 2, none⟩,
          ⟨3, some ("a@x.com"), some ("333"), some 2, "secondary", 3, 3, none⟩], 4⟩
      = .ok (⟨1, ["b@y.com", "a@x.com"], ["222", "111"], [2]⟩,
          ⟨[⟨1, some ("b@y.com"), some ("222"), none, "primary", 1, 1, none⟩,
            ⟨2, some ("a@x.com"), some ("111"), some 1, "secondary", 2, 4, none⟩,
            ⟨3, some ("a@x.com"), some ("333"), some 2, "secondary", 3, 3, none⟩], 4⟩) ∧
    linksOnlyToPrimaries
        ⟨[⟨1, some ("b@y.com"), some ("222"), none, "primary", 1, 1, none⟩,
          ⟨2, some ("a@x.com"), some ("111"), some 1, "secondary", 2, 4, none⟩,
          ⟨3, some ("a@x.com"), some ("333"), some 2, "secondary", 3, 3, none⟩], 4⟩ = false :=
  ⟨rfl, rfl, rfl, rfl, rfl⟩

/-- C6 counterexample: on the store below, the merge-phase fetch of candidate
primaries reads record 1 although its deletedAt is set, and that soft-deleted
record wins the merge: it is returned as the primaryContatctId and record 3 is
demoted under it.  So a store read during identify does consult a soft-deleted
record, and that record influences root resolution and the returned group. -/
theorem soft_deleted_record_chosen_as_survivor :
    identify { email := some ("a"), phoneNumber := some ("2") } 9
        ⟨[⟨1, some ("e1"), some ("p1"), none, "primary", 1, 1, some 5⟩,
          ⟨2, some ("a"), some ("1"), some 1, "secondary", 2, 2, none⟩,
          ⟨3, some ("b"), some ("2"), none, "primary", 3, 3, none⟩], 4⟩
      = .ok (⟨1, ["a", "b"], ["1", "2"], [2, 3]⟩,
          ⟨[⟨1, some ("e1"), some ("p1"), none, "primary", 1, 1, some 5⟩,
            ⟨2, some ("a"), some ("1"), some 1, "secondary", 2, 2, none⟩,
            ⟨3, some ("b"), some ("2"), some 1, "secondary", 3, 9, none⟩], 4⟩) ∧
    fetchById
        ⟨[⟨1, some ("e1"), some ("p1"), none, "primary", 1, 1, some 5⟩,
          ⟨2, some ("a"), some ("1"), some 1, "secondary", 2, 2, none⟩,
          ⟨3, some ("b"), some ("2"), none, "primary", 3, 3, none⟩], 4⟩ (some 1)
      = some ⟨1, some ("e1"), some ("p1"), none, "primary", 1, 1, some 5⟩ :=
  ⟨rfl, rfl⟩

/-- C9 counterexample: the only record is a secondary whose linkedId points to the
nonexistent id 99, yet identify proceeds with reconciliation and returns a normal
result (with 99 as the primaryContatctId, and a new secondary linked to 99)
instead of failing with an internal-consistency error. -/
theorem dangling_linkedId_returns_ok :
    identify { email := some ("a"), phoneNumber := some ("2") } 5
        ⟨[⟨1, some ("a"), some ("1"), some 99, "secondary", 1, 1, none⟩], 2⟩
      = .ok (⟨99, ["a"], ["1", "2"], [1, 2]⟩,
          ⟨[⟨1, some ("a"), some ("1"), some 99, "secondary", 1, 1, none⟩,
            ⟨2, some ("a"), some ("2"), some 99, "secondary", 5, 5, none⟩], 3⟩) := rfl

/-- C3: characterization of the new-information check.  The second conjunct ties
the boolean test of the code to the claim wording: an identifier is new exactly
when it is present (truthy) and not among the values of the resolved group. -/
theorem new_information_check_characterization
    (req : IdentifyRequest) (P : Nat) (now : Nat) (db : DB) :
    (new_info_step req (some P) now db).contacts
      = db.contacts ++
        (if (isNewVal req.email (groupEmails (some P) db)
              || isNewVal req.phoneNumber (groupPhones (some P) db)) = true then
            [{ id := db.nextId, email := req.email, phoneNumber := req.phoneNumber,
               linkedId := some P, linkPrecedence := "secondary", createdAt := now,
               updatedAt := now, deletedAt := none }]
          else []) ∧
    (∀ (v : Option String) (l : List String),
        isNewVal v l = true ↔ ∃ s, v = some s ∧ s ≠ "" ∧ ¬ s ∈ l) := by
  constructor
  · by_cases h : (isNewVal req.email (groupEmails (some P) db)
        || isNewVal req.phoneNumber (groupPhones (some P) db)) = true
    · simp [new_info_step, h, create_contact]
    · simp only [h, if_false]
      have h2 : (isNewVal req.email (groupEmails (some P) db)
          || isNewVal req.phoneNumber (groupPhones (some P) db)) = false := by
        revert h
        cases (isNewVal req.email (groupEmails (some P) db)
          || isNewVal req.phoneNumber (groupPhones (some P) db)) <;> simp
      simp [new_info_step, h2]
  · intro v l
    cases v with
    | none => simp [isNewVal]
    | some s =>
        simp only [isNewVal, Bool.and_eq_true, bne_iff_ne, ne_eq, Bool.not_eq_true']
        constructor
        · rintro ⟨h1, h2⟩
          exact ⟨s, rfl, h1, by simpa using h2⟩
        · rintro ⟨t, ht, h1, h2⟩
          cases ht
          exact ⟨h1, by simpa using h2⟩

theorem insertByCreatedAt_perm (c : Contact) (l : List Contact) :
    (insertByCreatedAt c l).Perm (c :: l) := by
  induction l with
  | nil => exact List.Perm.refl _
  | cons d ds ih =>
      by_cases h : c.createdAt ≤ d.createdAt
      · simp [insertByCreatedAt, h]
      · simp only [insertByCreatedAt, h, if_false]
        exact (ih.cons d).trans (List.Perm.swap c d ds)

theorem sortByCreatedAt_perm (l : List Contact) : (sortByCreatedAt l).Perm l := by
  induction l with
  | nil => exact List.Perm.refl _
  | cons c cs ih =>
      exact (insertByCreatedAt_perm c (sortByCreatedAt cs)).trans (ih.cons c)

theorem mem_sortByCreatedAt {c : Contact} {l : List Contact} :
    c ∈ sortByCreatedAt l ↔ c ∈ l :=
  (sortByCreatedAt_perm l).mem_iff

theorem insertByCreatedAt_sorted (c : Contact) (l : List Contact)
    (hl : l.Pairwise (fun a b => a.createdAt ≤ b.createdAt)) :
    (insertByCreatedAt c l).Pairwise (fun a b => a.createdAt ≤ b.createdAt) := by
  induction l with
  | nil => simp [insertByCreatedAt]
  | cons d ds ih =>
      rw [List.pairwise_cons] at hl
      by_cases h : c.createdAt ≤ d.createdAt
      · simp only [insertByCreatedAt, h, if_true]
        rw [List.pairwise_cons]
        refine ⟨?_, List.pairwise_cons.mpr hl⟩
        intro b hb
        rw [List.mem_cons] at hb
        rcases hb with hb | hb
        · subst hb; exact h
        · exact le_trans h (hl.1 b hb)
      · simp only [insertByCreatedAt, h, if_false]
        rw [List.pairwise_cons]
        refine ⟨?_, ih hl.2⟩
        intro b hb
        have hb2 := (insertByCreatedAt_perm c ds).mem_iff.mp hb
        rw [List.mem_cons] at hb2
        rcases hb2 with hb2 | hb2
        · subst hb2; omega
        · exact hl.1 b hb2

theorem sortByCreatedAt_sorted (l : List Contact) :
    (sortByCreatedAt l).Pairwise (fun a b => a.createdAt ≤ b.createdAt) := by
  induction l with
  | nil => simp [sortByCreatedAt]
  | cons c cs ih => exact insertByCreatedAt_sorted c _ ih

theorem match_query_filters_deleted (e p : Option String) (db : DB) (c : Contact)
    (h : c ∈ get_contacts_by_email_or_phone e p db) : c.deletedAt = none := by
  unfold get_contacts_by_email_or_phone at h
  have h2 := List.of_mem_filter (mem_sortByCreatedAt.mp h)
  simp only [Bool.and_eq_true, beq_iff_eq] at h2
  exact h2.1

theorem expand_query_filters_deleted (pid : Option Nat) (db : DB) (c : Contact)
    (h : c ∈ get_all_linked_contacts pid db) : c.deletedAt = none := by
  unfold get_all_linked_contacts at h
  have h2 := List.of_mem_filter (mem_sortByCreatedAt.mp h)
  simp only [Bool.and_eq_true, beq_iff_eq] at h2
  exact h2.1

/-- C6 amended: the match query and the group-expansion query do filter out
soft-deleted records, but the merge-phase fetch of a candidate primary by id
does not: on the one-record store shown it returns the record although its
deletedAt is set.  So a soft-deleted record can still influence root resolution
during a merge (see the counterexample theorem for a full identify call). -/
theorem queries_filter_soft_deleted_except_merge_fetch :
    (∀ (e p : Option String) (db : DB) (c : Contact),
        c ∈ get_contacts_by_email_or_phone e p db → c.deletedAt = none) ∧
    (∀ (pid : Option Nat) (db : DB) (c : Contact),
        c ∈ get_all_linked_contacts pid db → c.deletedAt = none) ∧
    (fetchById ⟨[⟨1, some ("e1"), some ("p1"), none, "primary", 1, 1, some 5⟩], 2⟩ (some 1)
      = some ⟨1, some ("e1"), some ("p1"), none, "primary", 1, 1, some 5⟩) :=
  ⟨match_query_filters_deleted, expand_query_filters_deleted, rfl⟩

/-- Witness for the C6 theorem: applies its first conjunct at a concrete store. -/
theorem queries_filter_soft_deleted_except_merge_fetch_witness :
    (⟨2, some ("a"), some ("1"), some 1, "secondary", 2, 2, none⟩ : Contact).deletedAt = none :=
  queries_filter_soft_deleted_except_merge_fetch.1 (some ("a")) none
    ⟨[⟨1, some ("e1"), some ("p1"), none, "primary", 1, 1, some 5⟩,
      ⟨2, some ("a"), some ("1"), some 1, "secondary", 2, 2, none⟩], 3⟩
    ⟨2, some ("a"), some ("1"), some 1, "secondary", 2, 2, none⟩ (by decide)

theorem consolidate_contacts_some (p : Nat) (db : DB) :
    ∃ resp, consolidate_contacts (some p) db = some resp ∧ resp.primaryContatctId = p :=
  ⟨_, rfl, rfl⟩

theorem new_info_step_contacts (req : IdentifyRequest) (pid : Option Nat) (now : Nat) (db : DB) :
    ∃ tail, (new_info_step req pid now db).contacts = db.contacts ++ tail := by
  unfold new_info_step
  by_cases h : (isNewVal req.email (groupEmails pid db)
      || isNewVal req.phoneNumber (groupPhones pid db)) = true
  · rw [if_pos h]; exact ⟨_, rfl⟩
  · rw [if_neg h]; exact ⟨[], (List.append_nil _).symm⟩

theorem finishIdentify_some (req : IdentifyRequest) (p : Nat) (now : Nat) (db : DB) :
    ∃ resp, finishIdentify req (some p) now db = .ok (resp, new_info_step req (some p) now db) ∧
      resp.primaryContatctId = p := by
  obtain ⟨resp, hc, hp⟩ := consolidate_contacts_some p (new_info_step req (some p) now db)
  refine ⟨resp, ?_, hp⟩
  unfold finishIdentify
  simp only [hc]

/-- C9 amended: identify performs no internal-consistency check during expansion:
whenever the matched records resolve to a single root id rid, the call proceeds
with rid as the group root and returns a normal result whose primaryContatctId
is rid, with no hypothesis that a record with id rid exists or is primary. -/
theorem single_root_used_without_consistency_check
    (req : IdentifyRequest) (now : Nat) (db : DB) (rid : Nat)
    (hvalid : (!truthy req.email && !truthy req.phoneNumber) = false)
    (hexact : (get_contacts_by_email_or_phone req.email req.phoneNumber db).find?
        (fun c => c.email == req.email && c.phoneNumber == req.phoneNumber) = none)
    (hroots : collectRoots (get_contacts_by_email_or_phone req.email req.phoneNumber db)
        = [some rid]) :
    ∃ resp db1, identify req now db = .ok (resp, db1) ∧ resp.primaryContatctId = rid := by
  have hne : (get_contacts_by_email_or_phone req.email req.phoneNumber db).isEmpty = false := by
    cases h : get_contacts_by_email_or_phone req.email req.phoneNumber db with
    | nil => rw [h] at hroots; exact absurd hroots.symm (List.cons_ne_nil _ _)
    | cons a l => rfl
  obtain ⟨resp, hfin, hp⟩ := finishIdentify_some req rid now db
  refine ⟨resp, new_info_step req (some rid) now db, ?_, hp⟩
  unfold identify
  simp only [hvalid, Bool.false_eq_true, if_false, hne, hexact, hroots, hfin]

/-- Witness for the C9 theorem: the inconsistent one-record store whose only
record is a secondary pointing at the nonexistent id 99. -/
theorem single_root_used_without_consistency_check_witness :
    ∃ resp db1,
      identify { email := some ("a"), phoneNumber := some ("2") } 5
          ⟨[⟨1, some ("a"), some ("1"), some 99, "secondary", 1, 1, none⟩], 2⟩
        = .ok (resp, db1) ∧ resp.primaryContatctId = 99 :=
  single_root_used_without_consistency_check
    { email := some ("a"), phoneNumber := some ("2") } 5
    ⟨[⟨1, some ("a"), some ("1"), some 99, "secondary", 1, 1, none⟩], 2⟩ 99
    (by decide) (by decide) (by decide)

theorem sqlEqS_self (v : Option String) (h : truthy v = true) : sqlEqS v v = true := by
  cases v with
  | none => simp [truthy] at h
  | some s => simp [sqlEqS]

/-- C4: when some active record carries exactly the submitted pair (field equal,
or both absent, on each side), identify performs no write (the store after the
call is the store before it) and two successive calls return the same
consolidated contact, the second call creating nothing either. -/
theorem exact_duplicate_no_write_idempotent
    (req : IdentifyRequest) (now now2 : Nat) (db : DB) (r : Contact)
    (hmem : r ∈ db.contacts) (hact : r.deletedAt = none)
    (he : r.email = req.email) (hp : r.phoneNumber = req.phoneNumber)
    (hvalid : truthy req.email = true ∨ truthy req.phoneNumber = true) :
    ∃ resp, identify req now db = .ok (resp, db) ∧ identify req now2 db = .ok (resp, db) := by
  have hv : (!truthy req.email && !truthy req.phoneNumber) = false := by
    rcases hvalid with h | h <;> simp [h]
  have hpred : (r.deletedAt == none
      && (sqlEqS r.email req.email || sqlEqS r.phoneNumber req.phoneNumber)) = true := by
    rw [hact, he, hp]
    rcases hvalid with h | h <;> simp [sqlEqS_self _ h]
  have hmemq : r ∈ get_contacts_by_email_or_phone req.email req.phoneNumber db := by
    unfold get_contacts_by_email_or_phone
    exact mem_sortByCreatedAt.mpr (List.mem_filter.mpr ⟨hmem, hpred⟩)
  have hne : (get_contacts_by_email_or_phone req.email req.phoneNumber db).isEmpty = false := by
    cases h : get_contacts_by_email_or_phone req.email req.phoneNumber db with
    | nil => rw [h] at hmemq; cases hmemq
    | cons a l => rfl
  cases hfind : (get_contacts_by_email_or_phone req.email req.phoneNumber db).find?
      (fun c => c.email == req.email && c.phoneNumber == req.phoneNumber) with
  | none =>
      exfalso
      have h2 := List.find?_eq_none.mp hfind r hmemq
      rw [he, hp] at h2
      simp at h2
  | some em =>
      obtain ⟨resp, hc, _⟩ := consolidate_contacts_some (rootOfExact em) db
      refine ⟨resp, ?_, ?_⟩ <;>
        · unfold identify
          simp only [hv, Bool.false_eq_true, if_false, hne, hfind, hc]

/-- Witness for the C4 theorem at a concrete one-record store. -/
theorem exact_duplicate_no_write_idempotent_witness :
    ∃ resp,
      identify { email := some ("a"), phoneNumber := some ("1") } 7
          ⟨[⟨1, some ("a"), some ("1"), none, "primary", 1, 1, none⟩], 2⟩
        = .ok (resp, ⟨[⟨1, some ("a"), some ("1"), none, "primary", 1, 1, none⟩], 2⟩) ∧
      identify { email := some ("a"), phoneNumber := some ("1") } 8
          ⟨[⟨1, some ("a"), some ("1"), none, "primary", 1, 1, none⟩], 2⟩
        = .ok (resp, ⟨[⟨1, some ("a"), some ("1"), none, "primary", 1, 1, none⟩], 2⟩) :=
  exact_duplicate_no_write_idempotent
    { email := some ("a"), phoneNumber := some ("1") } 7 8
    ⟨[⟨1, some ("a"), some ("1"), none, "primary", 1, 1, none⟩], 2⟩
    ⟨1, some ("a"), some ("1"), none, "primary", 1, 1, none⟩
    (by decide) rfl rfl rfl (Or.inl (by decide))

/-- The values listed for one optional column of a single record: a present,
non-empty value yields a one-element list, otherwise nothing. -/
def presentList (v : Option String) : List String :=
  match v with
  | some s => if s = "" then [] else [s]
  | none => []

theorem sqlEqN_ne_some (v : Option Nat) (b : Nat) (h : v ≠ some b) :
    sqlEqN v (some b) = false := by
  cases v with
  | none => rfl
  | some a =>
      have h2 : a ≠ b := by intro h3; exact h (by rw [h3])
      simp [sqlEqN, h2]

theorem addIfNew_nil (v : Option String) : addIfNew v [] = presentList v := by
  cases v with
  | none => rfl
  | some s =>
      by_cases h : s = ""
      · subst h; rfl
      · simp [addIfNew, presentList, h]

/-- C5: when the match query returns nothing, identify appends exactly one new
record, a primary carrying the submitted email and phone with no linkedId, and
returns the group of that record alone: its id as primaryContatctId, its truthy
email and phone as the only list entries, and no secondary ids.  The freshness
hypothesis states that the AUTOINCREMENT id is unused, which holds of every
store the service itself builds. -/
theorem no_match_creates_single_primary
    (req : IdentifyRequest) (now : Nat) (db : DB)
    (hvalid : (!truthy req.email && !truthy req.phoneNumber) = false)
    (hnone : get_contacts_by_email_or_phone req.email req.phoneNumber db = [])
    (hwf : ∀ c ∈ db.contacts, c.id ≠ db.nextId ∧ c.linkedId ≠ some db.nextId) :
    identify req now db
      = .ok ({ primaryContatctId := db.nextId, emails := presentList req.email,
               phoneNumbers := presentList req.phoneNumber, secondaryContactIds := [] },
             { contacts := db.contacts
                 ++ [⟨db.nextId, req.email, req.phoneNumber, none, "primary", now, now, none⟩],
               nextId := db.nextId + 1 }) := by
  have hgroup : get_all_linked_contacts (some db.nextId)
      ⟨db.contacts ++ [⟨db.nextId, req.email, req.phoneNumber, none, "primary", now, now, none⟩],
       db.nextId + 1⟩
      = [⟨db.nextId, req.email, req.phoneNumber, none, "primary", now, now, none⟩] := by
    unfold get_all_linked_contacts
    rw [List.filter_append]
    have h1 : db.contacts.filter (fun c => c.deletedAt == none
        && (sqlEqN (some c.id) (some db.nextId) || sqlEqN c.linkedId (some db.nextId))) = [] := by
      rw [List.filter_eq_nil_iff]
      intro c hc
      obtain ⟨h1, h2⟩ := hwf c hc
      rw [Bool.not_eq_true, sqlEqN_ne_some _ _ h2, sqlEqN_ne_some _ _ (by simp [h1])]
      simp
    rw [h1]
    simp [sqlEqN, sortByCreatedAt, insertByCreatedAt]
  unfold identify
  rw [hvalid]
  simp only [Bool.false_eq_true, if_false, hnone]
  simp only [create_contact, List.isEmpty_nil, if_true]
  unfold consolidate_contacts
  rw [hgroup]
  simp only [splitGo, beq_self_eq_true, if_true]
  simp [addIfNew_nil]

/-- Witness for the C5 theorem: the first call on the empty store. -/
theorem no_match_creates_single_primary_witness :
    identify { email := some ("a@x.com"), phoneNumber := some ("111") } 3 ⟨[], 1⟩
      = .ok ({ primaryContatctId := 1, emails := presentList (some ("a@x.com")),
               phoneNumbers := presentList (some ("111")), secondaryContactIds := [] },
             { contacts := [⟨1, some ("a@x.com"), some ("111"), none, "primary", 3, 3, none⟩],
               nextId := 2 }) :=
  no_match_creates_single_primary { email := some ("a@x.com"), phoneNumber := some ("111") } 3
    ⟨[], 1⟩ (by decide) (by decide) (fun c hc => absurd hc (List.not_mem_nil c))

/-- Spec-side notion of a listed value: present means a non-null, non-empty string
(the code treats the empty string as absent throughout, compare C10). -/
def presentVal : Option String → Option String
  | some s => if s = "" then none else some s
  | none => none

/-- Spec-side duplicate dropping, first occurrence wins, values in seen skipped. -/
def dedupExcl (seen : List String) : List String → List String
  | [] => []
  | s :: ss => if s ∈ seen then dedupExcl seen ss else s :: dedupExcl (s :: seen) ss

/-- Modelled from the spec, section 4.1: expandGroup(rootId) is the record with
that id together with every active record whose linkedId is rootId, ascending
createdAt.  Written from the spec's words for the refinement claim C7; it is
compared below with the code's consolidate_contacts. -/
def specExpandGroup (rootId : Nat) (db : DB) : List Contact :=
  sortByCreatedAt (db.contacts.filter
    (fun c => c.deletedAt == none && (c.id == rootId || c.linkedId == some rootId)))

/-- Modelled from the spec, section 4.3: project(primaryId) partitions the
expanded group into the primary record (the one with that id) and the ordered
secondaries, lists the primary's email first (if present), then each
secondary's email in ascending createdAt order, first occurrence winning,
phones symmetrically, and the secondaries' ids in ascending createdAt order. -/
def projectSpec (pid : Nat) (db : DB) : ContactResponse :=
  let group := specExpandGroup pid db
  let prim := group.find? (fun c => c.id == pid)
  let secs := group.filter (fun c => !(c.id == pid))
  let primEmails := match prim with
    | some p => (presentVal p.email).toList
    | none => []
  let primPhones := match prim with
    | some p => (presentVal p.phoneNumber).toList
    | none => []
  { primaryContatctId := pid
    emails := dedupExcl [] (primEmails ++ secs.filterMap (fun c => presentVal c.email))
    phoneNumbers := dedupExcl [] (primPhones ++ secs.filterMap (fun c => presentVal c.phoneNumber))
    secondaryContactIds := secs.map (fun c => c.id) }

theorem beq_some_some (a b : Nat) : (some a == some b) = (a == b) := rfl

theorem dedupExcl_congr (s1 s2 : List String) (l : List String)
    (h : ∀ x, x ∈ s1 ↔ x ∈ s2) : dedupExcl s1 l = dedupExcl s2 l := by
  induction l generalizing s1 s2 with
  | nil => rfl
  | cons a as ih =>
      by_cases ha : a ∈ s1
      · rw [dedupExcl, dedupExcl, if_pos ha, if_pos ((h a).mp ha)]
        exact ih s1 s2 h
      · rw [dedupExcl, dedupExcl, if_neg ha, if_neg (fun h2 => ha ((h a).mpr h2))]
        refine congrArg _ (ih (a :: s1) (a :: s2) ?_)
        intro x
        simp [h x]

theorem addIfNew_eq_of_none (v : Option String) (acc : List String)
    (hv : presentVal v = none) : addIfNew v acc = acc := by
  cases v with
  | none => rfl
  | some s =>
      have hs : s = "" := by
        by_cases h : s = ""
        · exact h
        · simp [presentVal, h] at hv
      subst hs
      simp [addIfNew]

theorem foldl_addIfNew (l : List (Option String)) (acc : List String) :
    l.foldl (fun a v => addIfNew v a) acc = acc ++ dedupExcl acc (l.filterMap presentVal) := by
  induction l generalizing acc with
  | nil => simp [dedupExcl]
  | cons v vs ih =>
      rw [List.foldl_cons, List.filterMap_cons]
      cases hv : presentVal v with
      | none => rw [addIfNew_eq_of_none v acc hv]; exact ih acc
      | some s =>
          have hvs : v = some s ∧ s ≠ "" := by
            cases v with
            | none => simp [presentVal] at hv
            | some t =>
                by_cases h : t = ""
                · simp [presentVal, h] at hv
                · simp only [presentVal, h, if_false, Option.some.injEq] at hv
                  subst hv; exact ⟨rfl, h⟩
          obtain ⟨hv1, hs⟩ := hvs
          subst hv1
          by_cases hmem : s ∈ acc
          · have : addIfNew (some s) acc = acc := by
              have hc : acc.contains s = true := List.elem_iff.mpr hmem
              simp only [addIfNew, hc, Bool.not_true, Bool.and_false, Bool.false_eq_true,
                if_false]
            rw [this, dedupExcl, if_pos hmem]
            exact ih acc
          · have : addIfNew (some s) acc = acc ++ [s] := by
              have hc : acc.contains s = false := by
                cases h2 : acc.contains s
                · rfl
                · exact absurd (List.elem_iff.mp h2) hmem
              simp [addIfNew, hc, bne_iff_ne, hs]
              exact hmem
            rw [this, dedupExcl, if_neg hmem, ih (acc ++ [s]),
                dedupExcl_congr (acc ++ [s]) (s :: acc) _ (by intro x; simp [or_comm]),
                List.append_assoc]
            rfl

theorem presentList_eq_toList (v : Option String) : presentList v = (presentVal v).toList := by
  cases v with
  | none => rfl
  | some s =>
      by_cases h : s = "" <;> simp [presentList, presentVal, h]

theorem dedupExcl_head (o : Option String) (rest : List String) :
    o.toList ++ dedupExcl o.toList rest = dedupExcl [] (o.toList ++ rest) := by
  cases o with
  | none => simp
  | some s => simp [dedupExcl]

theorem splitGo_no_match (pid : Option Nat) (p0 : Option Contact) (s0 l : List Contact)
    (h : ∀ c ∈ l, (some c.id == pid) = false) :
    splitGo pid (p0, s0) l = (p0, s0 ++ l) := by
  induction l generalizing s0 with
  | nil => simp [splitGo]
  | cons c cs ih =>
      simp only [splitGo, h c (List.mem_cons_self c cs), Bool.false_eq_true, if_false]
      rw [ih (s0 ++ [c]) (fun d hd => h d (List.mem_cons_of_mem c hd))]
      simp

theorem splitGo_eq (pid : Nat) (l : List Contact)
    (hl : (l.map (fun c => c.id)).Nodup) :
    splitGo (some pid) (none, []) l
      = (l.find? (fun c => c.id == pid), l.filter (fun c => !(c.id == pid))) := by
  suffices hgen : ∀ (p0 : Option Contact) (s0 : List Contact),
      splitGo (some pid) (p0, s0) l
        = ((match l.find? (fun c => c.id == pid) with
            | some c => some c
            | none => p0),
           s0 ++ l.filter (fun c => !(c.id == pid))) by
    rw [hgen none []]
    cases hf : l.find? (fun c => c.id == pid) <;> simp
  induction l with
  | nil => intro p0 s0; simp [splitGo, List.find?]
  | cons c cs ih =>
      rw [List.map_cons, List.nodup_cons] at hl
      intro p0 s0
      by_cases h : (c.id == pid) = true
      · have hcid : c.id = pid := by simpa using h
        have hnm : ∀ d ∈ cs, (some d.id == some pid) = false := by
          intro d hd
          have hne : d.id ≠ pid := by
            intro he
            exact hl.1 (by rw [← hcid] at he; exact he ▸ List.mem_map_of_mem (fun x => x.id) hd)
          simp [hne]
        simp only [splitGo, beq_some_some, h, if_true]
        rw [splitGo_no_match _ _ _ _ hnm]
        have hfind : List.find? (fun d => d.id == pid) (c :: cs) = some c := by
          simp [List.find?_cons, h]
        have hfil : cs.filter (fun d => !(d.id == pid)) = cs := by
          rw [List.filter_eq_self]
          intro d hd
          have h3 := hnm d hd
          simp only [beq_some_some] at h3
          simp [h3]
        have hfil2 : List.filter (fun d => !(d.id == pid)) (c :: cs) = cs := by
          simp [List.filter_cons, h, hfil]
        rw [hfind, hfil2]
      · have hb : (some c.id == some pid) = false := by
          rw [beq_some_some]
          cases h2 : (c.id == pid)
          · rfl
          · exact absurd h2 h
        have hb2 : (c.id == pid) = false := by simpa [beq_some_some] using hb
        simp only [splitGo, hb, Bool.false_eq_true, if_false]
        rw [ih hl.2 p0 (s0 ++ [c])]
        have hfind : List.find? (fun d => d.id == pid) (c :: cs)
            = List.find? (fun d => d.id == pid) cs := by
          simp [List.find?_cons, hb2]
        have hfil2 : List.filter (fun d => !(d.id == pid)) (c :: cs)
            = c :: List.filter (fun d => !(d.id == pid)) cs := by
          simp [List.filter_cons, hb2]
        rw [hfind, hfil2]
        simp

theorem group_eq_spec (pid : Nat) (db : DB) :
    get_all_linked_contacts (some pid) db = specExpandGroup pid db := by
  unfold get_all_linked_contacts specExpandGroup
  congr 1
  apply List.filter_congr
  intro c _
  have h1 : sqlEqN (some c.id) (some pid) = (c.id == pid) := rfl
  have h2 : sqlEqN c.linkedId (some pid) = (c.linkedId == some pid) := by
    cases h : c.linkedId <;> simp [sqlEqN]
  rw [h1, h2]

theorem group_ids_nodup (pid : Nat) (db : DB)
    (h : (db.contacts.map (fun c => c.id)).Nodup) :
    ((specExpandGroup pid db).map (fun c => c.id)).Nodup := by
  unfold specExpandGroup
  have h1 : (db.contacts.filter (fun c => c.deletedAt == none
      && (c.id == pid || c.linkedId == some pid))).Sublist db.contacts :=
    List.filter_sublist _
  have h2 := (h1.map (fun c => c.id)).nodup h
  exact ((sortByCreatedAt_perm _).map (fun c => c.id)).nodup_iff.mpr h2

/-- C7: the code's consolidate_contacts equals the spec-side projection, and the
expanded group really is sorted ascending by createdAt and is a permutation of
the active group members.  The id-uniqueness hypothesis reflects the PRIMARY KEY
column. -/
theorem consolidate_matches_spec_projection (pid : Nat) (db : DB)
    (hids : (db.contacts.map (fun c => c.id)).Nodup) :
    consolidate_contacts (some pid) db = some (projectSpec pid db) ∧
    (specExpandGroup pid db).Pairwise (fun a b => a.createdAt ≤ b.createdAt) ∧
    (specExpandGroup pid db).Perm (db.contacts.filter
      (fun c => c.deletedAt == none && (c.id == pid || c.linkedId == some pid))) := by
  refine ⟨?_, ?_, ?_⟩
  · simp only [consolidate_contacts, projectSpec, group_eq_spec,
      splitGo_eq pid (specExpandGroup pid db) (group_ids_nodup pid db hids)]
    have hfold : ∀ (secs : List Contact) (f : Contact → Option String) (acc : List String),
        secs.foldl (fun a c => addIfNew (f c) a) acc
          = acc ++ dedupExcl acc (secs.filterMap (fun c => presentVal (f c))) := by
      intro secs f acc
      have h1 : secs.foldl (fun a c => addIfNew (f c) a) acc
          = (secs.map f).foldl (fun a v => addIfNew v a) acc := by
        rw [List.foldl_map]
      rw [h1, foldl_addIfNew, List.filterMap_map]
      rfl
    cases hfind : (specExpandGroup pid db).find? (fun c => c.id == pid) with
    | none =>
        simp only [hfind, hfold]
        simp
    | some p =>
        simp only [hfind, hfold]
        rw [addIfNew_nil, addIfNew_nil, presentList_eq_toList, presentList_eq_toList]
        rw [dedupExcl_head, dedupExcl_head]
  · exact sortByCreatedAt_sorted _
  · exact sortByCreatedAt_perm _

/-- Witness for the C7 theorem at a concrete two-record group. -/
theorem consolidate_matches_spec_projection_witness :
    consolidate_contacts (some 1)
        ⟨[⟨1, some ("a"), some ("1"), none, "primary", 1, 1, none⟩,
          ⟨2, some ("b"), some ("2"), some 1, "secondary", 2, 2, none⟩], 3⟩
      = some (projectSpec 1
        ⟨[⟨1, some ("a"), some ("1"), none, "primary", 1, 1, none⟩,
          ⟨2, some ("b"), some ("2"), some 1, "secondary", 2, 2, none⟩], 3⟩) :=
  (consolidate_matches_spec_projection 1
    ⟨[⟨1, some ("a"), some ("1"), none, "primary", 1, 1, none⟩,
      ⟨2, some ("b"), some ("2"), some 1, "secondary", 2, 2, none⟩], 3⟩ (by decide)).1

theorem fetchRoots_forall2 (db : DB) (roots : List (Option Nat)) (recs : List Contact)
    (h : fetchRoots db roots = some recs) :
    List.Forall₂ (fun r c => r = some c.id ∧ c ∈ db.contacts) roots recs := by
  induction roots generalizing recs with
  | nil =>
      rw [fetchRoots] at h
      cases h
      exact List.Forall₂.nil
  | cons r rs ih =>
      rw [fetchRoots] at h
      cases hr : fetchById db r with
      | none => rw [hr] at h; cases h
      | some c =>
          rw [hr] at h
          cases hrs : fetchRoots db rs with
          | none => rw [hrs] at h; cases h
          | some cs =>
              rw [hrs] at h
              cases h
              refine List.Forall₂.cons ?_ (ih cs hrs)
              cases r with
              | none => rw [fetchById] at hr; cases hr
              | some p =>
                  rw [fetchById] at hr
                  have hpr := List.find?_some hr
                  have hmem := List.mem_of_find?_eq_some hr
                  simp only [beq_iff_eq] at hpr
                  exact ⟨by rw [hpr], hmem⟩

theorem forall2_mem_right {R : Option Nat → Contact → Prop}
    {l1 : List (Option Nat)} {l2 : List Contact}
    (h : List.Forall₂ R l1 l2) {b : Contact} (hb : b ∈ l2) : ∃ a ∈ l1, R a b := by
  induction h with
  | nil => cases hb
  | cons hR hF ih =>
      rw [List.mem_cons] at hb
      rcases hb with hb | hb
      · subst hb; exact ⟨_, List.mem_cons_self _ _, hR⟩
      · obtain ⟨a, ha, haR⟩ := ih hb
        exact ⟨a, List.mem_cons_of_mem _ ha, haR⟩

theorem pyMin_cons (c0 x : Contact) (xs : List Contact) :
    pyMinByCreatedAt c0 (x :: xs)
      = pyMinByCreatedAt (if x.createdAt < c0.createdAt then x else c0) xs := rfl

theorem pyMin_min (c0 : Contact) (cs : List Contact) :
    pyMinByCreatedAt c0 cs ∈ c0 :: cs ∧
    ∀ r ∈ c0 :: cs, (pyMinByCreatedAt c0 cs).createdAt ≤ r.createdAt := by
  induction cs generalizing c0 with
  | nil =>
      refine ⟨List.mem_cons_self _ _, ?_⟩
      intro r hr
      rw [List.mem_cons] at hr
      rcases hr with hr | hr
      · subst hr; exact le_refl _
      · cases hr
  | cons x xs ih =>
      rw [pyMin_cons]
      by_cases hx : x.createdAt < c0.createdAt
      · rw [if_pos hx]
        obtain ⟨hmem, hmin⟩ := ih x
        refine ⟨List.mem_cons_of_mem c0 hmem, ?_⟩
        intro r hr
        rw [List.mem_cons] at hr
        rcases hr with hr | hr
        · subst hr
          have h1 := hmin x (List.mem_cons_self x xs)
          omega
        · exact hmin r hr
      · rw [if_neg hx]
        obtain ⟨hmem, hmin⟩ := ih c0
        constructor
        · rw [List.mem_cons] at hmem ⊢
          rcases hmem with hmem | hmem
          · exact Or.inl hmem
          · exact Or.inr (List.mem_cons_of_mem x hmem)
        · intro r hr
          rw [List.mem_cons] at hr
          rcases hr with hr | hr
          · exact hmin r (by rw [hr]; exact List.mem_cons_self c0 xs)
          · rw [List.mem_cons] at hr
            rcases hr with hr | hr
            · subst hr
              have h1 := hmin c0 (List.mem_cons_self c0 xs)
              omega
            · exact hmin r (List.mem_cons_of_mem c0 hr)

theorem demote_id (sid now : Nat) (c : Contact) : (demote sid now c).id = c.id := rfl

theorem demote_demote (sid now : Nat) (c : Contact) :
    demote sid now (demote sid now c) = demote sid now c := rfl

theorem demoteAll_contacts (roots : List Contact) (sid now : Nat) (db : DB) :
    (demoteAll roots sid now db).contacts
      = db.contacts.map (fun c =>
          if c.id ≠ sid ∧ c.id ∈ roots.map (fun r => r.id) then demote sid now c else c) := by
  induction roots generalizing db with
  | nil => simp [demoteAll]
  | cons r rs ih =>
      have h1 : demoteAll (r :: rs) sid now db
          = demoteAll rs sid now
              (if r.id = sid then db else update_contact_to_secondary r.id sid now db) := rfl
      rw [h1]
      by_cases hr : r.id = sid
      · rw [if_pos hr, ih]
        apply List.map_congr_left
        intro c hc
        by_cases h2 : c.id = sid
        · simp [h2]
        · have hiff : c.id ∈ List.map (fun r => r.id) (r :: rs)
              ↔ c.id ∈ List.map (fun r => r.id) rs := by
            rw [List.map_cons, List.mem_cons]
            constructor
            · rintro (h3 | h3)
              · exact absurd (h3.trans hr) h2
              · exact h3
            · exact fun h3 => Or.inr h3
          by_cases h3 : c.id ∈ List.map (fun r => r.id) rs
          · rw [if_pos ⟨h2, h3⟩, if_pos ⟨h2, hiff.mpr h3⟩]
          · rw [if_neg (fun h4 => h3 h4.2), if_neg (fun h4 => h3 (hiff.mp h4.2))]
      · rw [if_neg hr, ih]
        unfold update_contact_to_secondary
        rw [List.map_map]
        apply List.map_congr_left
        intro c hc
        simp only [Function.comp_apply]
        by_cases h2 : c.id = r.id
        · rw [if_pos h2]
          have hcs : c.id ≠ sid := by rw [h2]; exact hr
          by_cases h3 : c.id ∈ List.map (fun r => r.id) rs
          · rw [if_pos ⟨by rw [demote_id]; exact hcs, by rw [demote_id]; exact h3⟩,
              demote_demote,
              if_pos ⟨hcs, by rw [List.map_cons, List.mem_cons]; exact Or.inr h3⟩]
          · rw [if_neg (fun h4 => h3 (by rw [demote_id] at h4; exact h4.2)),
              if_pos ⟨hcs, by rw [List.map_cons, List.mem_cons]; exact Or.inl h2⟩]
        · rw [if_neg h2]
          by_cases h4 : c.id = sid
          · rw [if_neg (fun h5 => h5.1 h4), if_neg (fun h5 => h5.1 h4)]
          · have hiff : c.id ∈ List.map (fun r => r.id) (r :: rs)
                ↔ c.id ∈ List.map (fun r => r.id) rs := by
              rw [List.map_cons, List.mem_cons]
              constructor
              · rintro (h3 | h3)
                · exact absurd h3 h2
                · exact h3
              · exact fun h3 => Or.inr h3
            by_cases h3 : c.id ∈ List.map (fun r => r.id) rs
            · rw [if_pos ⟨h4, h3⟩, if_pos ⟨h4, hiff.mpr h3⟩]
            · rw [if_neg (fun h5 => h3 h5.2), if_neg (fun h5 => h3 (hiff.mp h5.2))]

/-- C2 amended: when the matched records resolve to more than one distinct root
and all root rows exist, identify succeeds, the surviving primary is a fetched
root record with the minimal createdAt - Python's min keeps the first minimal
element in the set's iteration order, so on a createdAt tie the survivor need
not be the minimum id (see the counterexample) - the response names its id,
and every other root record appears in the final store updated to secondary
with linkedId the survivor's id and updatedAt refreshed to the call time, its
id, createdAt, email and phoneNumber unchanged. -/
theorem merge_survivor_oldest_and_roots_demoted
    (req : IdentifyRequest) (now : Nat) (db : DB)
    (p0 p1 : Option Nat) (ps : List (Option Nat)) (c0 : Contact) (cs : List Contact)
    (hvalid : (!truthy req.email && !truthy req.phoneNumber) = false)
    (hexact : (get_contacts_by_email_or_phone req.email req.phoneNumber db).find?
        (fun c => c.email == req.email && c.phoneNumber == req.phoneNumber) = none)
    (hroots : collectRoots (get_contacts_by_email_or_phone req.email req.phoneNumber db)
        = p0 :: p1 :: ps)
    (hfetch : fetchRoots db (p0 :: p1 :: ps) = some (c0 :: cs)) :
    ∃ resp db1,
      identify req now db = .ok (resp, db1) ∧
      pyMinByCreatedAt c0 cs ∈ c0 :: cs ∧
      (∀ r ∈ c0 :: cs, (pyMinByCreatedAt c0 cs).createdAt ≤ r.createdAt) ∧
      resp.primaryContatctId = (pyMinByCreatedAt c0 cs).id ∧
      (∀ r ∈ c0 :: cs, r.id ≠ (pyMinByCreatedAt c0 cs).id →
        ∃ r2 ∈ db1.contacts,
          r2.id = r.id ∧ r2.linkPrecedence = "secondary" ∧
          r2.linkedId = some (pyMinByCreatedAt c0 cs).id ∧ r2.updatedAt = now ∧
          r2.createdAt = r.createdAt ∧ r2.email = r.email ∧ r2.phoneNumber = r.phoneNumber) := by
  have hne : (get_contacts_by_email_or_phone req.email req.phoneNumber db).isEmpty = false := by
    cases h : get_contacts_by_email_or_phone req.email req.phoneNumber db with
    | nil => rw [h] at hroots; exact absurd hroots.symm (List.cons_ne_nil _ _)
    | cons a l => rfl
  have hf2 := fetchRoots_forall2 db (p0 :: p1 :: ps) (c0 :: cs) hfetch
  obtain ⟨hmem, hmin⟩ := pyMin_min c0 cs
  obtain ⟨resp, hfin, hpid⟩ := finishIdentify_some req (pyMinByCreatedAt c0 cs).id now
    (demoteAll (c0 :: cs) (pyMinByCreatedAt c0 cs).id now db)
  obtain ⟨tail, htail⟩ := new_info_step_contacts req (some (pyMinByCreatedAt c0 cs).id) now
    (demoteAll (c0 :: cs) (pyMinByCreatedAt c0 cs).id now db)
  refine ⟨resp, new_info_step req (some (pyMinByCreatedAt c0 cs).id) now
    (demoteAll (c0 :: cs) (pyMinByCreatedAt c0 cs).id now db), ?_, hmem, hmin, hpid, ?_⟩
  · unfold identify
    simp only [hvalid, Bool.false_eq_true, if_false, hne, hexact, hroots, hfetch, hfin]
  · intro r hr hrid
    have hrdb : r ∈ db.contacts := by
      obtain ⟨a, ha, hR⟩ := forall2_mem_right hf2 hr
      exact hR.2
    have hgr : (fun c => if c.id ≠ (pyMinByCreatedAt c0 cs).id
          ∧ c.id ∈ (c0 :: cs).map (fun r => r.id)
        then demote (pyMinByCreatedAt c0 cs).id now c else c) r
        = demote (pyMinByCreatedAt c0 cs).id now r :=
      if_pos ⟨hrid, List.mem_map_of_mem (fun r => r.id) hr⟩
    have hmem2 : demote (pyMinByCreatedAt c0 cs).id now r
        ∈ (demoteAll (c0 :: cs) (pyMinByCreatedAt c0 cs).id now db).contacts := by
      rw [demoteAll_contacts]
      rw [← hgr]
      exact List.mem_map_of_mem _ hrdb
    refine ⟨demote (pyMinByCreatedAt c0 cs).id now r, ?_, rfl, rfl, rfl, rfl, rfl, rfl, rfl⟩
    rw [htail]
    exact List.mem_append_left tail hmem2

/-- Witness for the C2 theorem: two independent primaries merged by a call
linking them; the older record 1 survives and record 2 is demoted under it. -/
theorem merge_survivor_oldest_and_roots_demoted_witness :
    ∃ resp db1,
      identify { email := some ("b"), phoneNumber := some ("111") } 4
          ⟨[⟨1, some ("b"), some ("222"), none, "primary", 1, 1, none⟩,
            ⟨2, some ("a"), some ("111"), none, "primary", 2, 2, none⟩], 3⟩
        = .ok (resp, db1) ∧
      resp.primaryContatctId = 1 ∧
      ∃ r2 ∈ db1.contacts, r2.id = 2 ∧ r2.linkPrecedence = "secondary" ∧
        r2.linkedId = some 1 ∧ r2.updatedAt = 4 := by
  obtain ⟨resp, db1, hid, hmem, hmin, hpid, hdem⟩ :=
    merge_survivor_oldest_and_roots_demoted
      { email := some ("b"), phoneNumber := some ("111") } 4
      ⟨[⟨1, some ("b"), some ("222"), none, "primary", 1, 1, none⟩,
        ⟨2, some ("a"), some ("111"), none, "primary", 2, 2, none⟩], 3⟩
      (some 1) (some 2) []
      ⟨1, some ("b"), some ("222"), none, "primary", 1, 1, none⟩
      [⟨2, some ("a"), some ("111"), none, "primary", 2, 2, none⟩]
      (by decide) (by decide) (by decide) (by decide)
  obtain ⟨r2, hr2mem, hid2, hprec, hlink, hupd, hcre, hem, hph⟩ :=
    hdem ⟨2, some ("a"), some ("111"), none, "primary", 2, 2, none⟩ (by decide) (by decide)
  exact ⟨resp, db1, hid, hpid, r2, hr2mem, hid2, hprec, hlink, hupd⟩

/-- C2 counterexample: the two candidate primaries, ids 2 and 10, carry the same
createdAt, and their ids collide in the set's hash table (both hash to slot 2
mod 8).  The matched secondary contributing root 10 has the earlier createdAt,
so 10 enters the set first and takes slot 2, 2 probes to slot 3, and the set
iterates [10, 2]; Python's min then keeps record 10.  The survivor is id 10,
not the minimum id 2, refuting the claimed tie-break; record 2 is demoted under
10 and the response names 10 as the primary. -/
theorem createdAt_tie_survivor_not_min_id :
    identify { email := some ("x@x"), phoneNumber := some ("777") } 6
        ⟨[⟨2, some ("two@x"), some ("222"), none, "primary", 1, 1, none⟩,
          ⟨10, some ("ten@x"), some ("100"), none, "primary", 1, 1, none⟩,
          ⟨11, some ("x@x"), some ("000"), some 10, "secondary", 2, 2, none⟩,
          ⟨12, some ("b@x"), some ("777"), some 2, "secondary", 3, 3, none⟩], 13⟩
      = .ok (⟨10, ["ten@x", "two@x", "x@x"], ["100", "222", "000", "777"], [2, 11, 13]⟩,
          ⟨[⟨2, some ("two@x"), some ("222"), some 10, "secondary", 1, 6, none⟩,
            ⟨10, some ("ten@x"), some ("100"), none, "primary", 1, 1, none⟩,
            ⟨11, some ("x@x"), some ("000"), some 10, "secondary", 2, 2, none⟩,
            ⟨12, some ("b@x"), some ("777"), some 2, "secondary", 3, 3, none⟩,
            ⟨13, some ("x@x"), some ("777"), some 10, "secondary", 6, 6, none⟩], 14⟩) := rfl
